import Mathlib

/-!
Shallow embedding of the evm-conflict-rate analyzer: `worker.py`,
`calc_indie_txn.py`, `conflict_rate.py` and `config.py`.

Python strings are modelled as lists of character codes (`PyStr`), Python
sets as `Finset`, Python lists as `List`, exceptions as explicit outcome
types, and the network as an explicit list of provider responses.
-/

/-- Python strings, as lists of character codes (addresses, hashes, calldata). -/
abbrev PyStr : Type := List Nat

/-- Character codes of a Lean string literal. -/
def strCodes (s : String) : PyStr := s.data.map Char.toNat

/-- Python `str.lower` on one character code (ASCII range, as applied to hex address strings). -/
def pyLowerChar (c : Nat) : Nat := if 65 ≤ c ∧ c ≤ 90 then c + 32 else c

/-- Python `str.lower` on a string. -/
def pyLower (s : PyStr) : PyStr := s.map pyLowerChar

/-- The string is already in lowercase form. -/
abbrev isLowerStr (s : PyStr) : Prop := pyLower s = s

/-- Python `a or b` for an optional string (`None` and the empty string are falsy). -/
def pyOr (a : Option PyStr) (b : PyStr) : PyStr :=
  match a with
  | some s => if s = [] then b else s
  | none => b

/-- Python f-string rendering of an `Optional[str]` value. -/
def optRepr (a : Option PyStr) : PyStr :=
  match a with
  | some s => s
  | none => strCodes "None"

/-- Python `itertools.combinations(l, 2)`, in iteration order. -/
def listPairs {α : Type} : List α → List (α × α)
  | [] => []
  | x :: xs => (xs.map fun y => (x, y)) ++ listPairs xs

/-- config.py: maximum number of retries after a rate-limit response. -/
def MAX_RETRIES : Nat := 10

/-- config.py: base retry delay in seconds. -/
def RETRY_DELAY : Nat := 2

/-- worker.py `Modification`: one value-transfer/call observed in a trace. -/
structure Modification where
  type : PyStr
  from_address : PyStr
  to_address : PyStr
  input_data : PyStr
  value : PyStr
  token_from : Option PyStr := none
  token_to : Option PyStr := none
  function_selector : Option PyStr := none
deriving DecidableEq, Inhabited

/-- worker.py `Conflict`. -/
structure Conflict where
  contract_address : PyStr
  type : PyStr
  details : PyStr
deriving DecidableEq

/-- worker.py `get_function_selector`. -/
def get_function_selector (input_data : PyStr) : Option PyStr :=
  if input_data.length ≥ 10 then some (input_data.take 10) else none

/-- worker.py `decode_erc20_transfer`: decodes the recipient of an ERC-20
`transfer(address,uint256)` call from its calldata; the first component of the
returned pair (the `token_from` operand) is never decoded and is always `None`. -/
def decode_erc20_transfer (input_data : PyStr) : Option PyStr × Option PyStr :=
  if input_data.length < 138 then (none, none)
  else if input_data.take 10 ≠ strCodes "0xa9059cbb" then (none, none)
  else (none, some (pyLower (strCodes "0x" ++ (input_data.drop 34).take 40)))

/-- One internal call of a `callTracer` trace.  `hasCalls` models the truthiness
of the call's own `calls` entry, used only by `is_contract`. -/
structure SubCall where
  ctype : PyStr
  from_address : PyStr
  to_address : PyStr
  input : PyStr
  value : PyStr
  hasCalls : Bool
deriving DecidableEq

/-- The `result` object of a `callTracer` trace: the root call plus its direct
internal calls.  Absent `to` (contract creation) is `none`; absent `input` /
`value` are represented by their Python defaults `"0x"` / `"0x0"`. -/
structure TraceResult where
  from_address : PyStr
  to_address : Option PyStr
  input : PyStr
  value : PyStr
  calls : List SubCall
deriving DecidableEq

/-- worker.py `is_contract`, applied to a call object with the given `input`,
truthiness of its `calls` field, and the (lowered) target address. -/
def is_contract (input : PyStr) (hasCalls : Bool) (address : PyStr) : Bool :=
  input != strCodes "0x" || hasCalls || address.take 26 == strCodes "0x000000000000000000000000"

/-- worker.py `analyze_trace`, root-call branch (entered when `result.get('to')` is truthy). -/
def rootMods (r : TraceResult) : List Modification :=
  match r.to_address with
  | none => []
  | some to0 =>
    let from_addr := pyLower r.from_address
    let to_addr := pyLower to0
    let input_data := r.input
    let value := r.value
    let dec := decode_erc20_transfer input_data
    let token_from := dec.1
    let token_to := dec.2
    let mod_type :=
      if token_from.isSome ∨ token_to.isSome then strCodes "erc20-transfer"
      else if ¬ is_contract r.input (!r.calls.isEmpty) to_addr ∧ value ≠ strCodes "0x0" then
        strCodes "eoa-transfer"
      else if input_data ≠ strCodes "0x" then strCodes "contract-call"
      else strCodes "eth-transfer"
    [{ type := mod_type
       from_address := from_addr
       to_address := to_addr
       input_data := input_data
       value := value
       token_from := if mod_type = strCodes "erc20-transfer" then some (pyOr token_from from_addr) else none
       token_to := if mod_type = strCodes "erc20-transfer" then token_to else none
       function_selector := get_function_selector input_data }]

/-- worker.py `analyze_trace`, internal-call branch (one `Modification` per direct call). -/
def callMod (call : SubCall) : Modification :=
  let call_type0 := pyLower call.ctype
  let from_addr := pyLower call.from_address
  let to_addr := pyLower call.to_address
  let input_data := call.input
  let value := call.value
  let dec := decode_erc20_transfer input_data
  let token_from := dec.1
  let token_to := dec.2
  let call_type :=
    if token_from.isSome ∨ token_to.isSome then strCodes "erc20-transfer"
    else if ¬ is_contract call.input call.hasCalls to_addr ∧ value ≠ strCodes "0x0" then
      strCodes "eoa-transfer"
    else call_type0
  { type := call_type
    from_address := from_addr
    to_address := to_addr
    input_data := input_data
    value := value
    token_from := if call_type = strCodes "erc20-transfer" then some (pyOr token_from from_addr) else none
    token_to := if call_type = strCodes "erc20-transfer" then token_to else none
    function_selector := get_function_selector input_data }

/-- worker.py `analyze_trace`.  The argument is the trace's `result` object;
`none` models `trace.get('result', {})` returning an empty object. -/
def analyze_trace : Option TraceResult → List Modification
  | none => []
  | some r => rootMods r ++ r.calls.map callMod

/-- worker.py `check_modifications_conflict`, same-source block: one conflict per
distinct source address common to both transactions' nonzero-value modifications. -/
def sameSourceConflicts (mods1 mods2 : List Modification) : List Conflict :=
  let sources1 := (mods1.filter fun m => m.value != strCodes "0x0").map (·.from_address)
  let sources2 := (mods2.filter fun m => m.value != strCodes "0x0").map (·.from_address)
  ((sources1.dedup).filter fun s => s ∈ sources2).map fun source =>
    { contract_address := source
      type := strCodes "same-source"
      details := strCodes "Multiple ETH transfers from same source address " ++ source }

/-- worker.py `check_modifications_conflict`, ERC-20 block: for each
`erc20-transfer` modification of tx1, the first `erc20-transfer` modification of
tx2 with the same `to` address and a matching token operand (the inner loop
breaks at the first match). -/
def erc20Conflicts (mods1 mods2 : List Modification) : List Conflict :=
  mods1.filterMap fun m1 =>
    if m1.type = strCodes "erc20-transfer" then
      (mods2.find? fun m2 =>
          m2.type == strCodes "erc20-transfer" && m1.to_address == m2.to_address
            && (m1.token_from == m2.token_from || m1.token_to == m2.token_to)).map fun m2 =>
        { contract_address := m1.to_address
          type := strCodes "erc20-balance-conflict"
          details := strCodes "ERC20 transfers affecting same address: "
            ++ optRepr (if m1.token_from = m2.token_from then m1.token_from else m1.token_to) }
    else none

/-- worker.py `check_modifications_conflict`, EOA block. -/
def eoaConflicts (mods1 mods2 : List Modification) : List Conflict :=
  mods1.filterMap fun m1 =>
    if m1.type = strCodes "eoa-transfer" then
      (mods2.find? fun m2 =>
          m2.type == strCodes "eoa-transfer" && m1.to_address == m2.to_address).map fun _ =>
        { contract_address := m1.to_address
          type := strCodes "eoa-transfer-conflict"
          details := strCodes "Multiple transfers to same EOA" }
    else none

/-- worker.py `check_modifications_conflict`, contract-call block. -/
def contractCallConflicts (mods1 mods2 : List Modification) : List Conflict :=
  mods1.filterMap fun m1 =>
    if m1.type = strCodes "contract-call" then
      (mods2.find? fun m2 =>
          m2.type == strCodes "contract-call" && m1.to_address == m2.to_address
            && m1.function_selector == m2.function_selector).map fun _ =>
        { contract_address := m1.to_address
          type := strCodes "contract-call-conflict"
          details := strCodes "Multiple calls to same function " ++ optRepr m1.function_selector }
    else none

/-- worker.py `check_modifications_conflict`.  `is_dependent` is set exactly when
a conflict is appended, so it equals nonemptiness of the conflict list. -/
def check_modifications_conflict (mods1 mods2 : List Modification) : Bool × List Conflict :=
  let conflicts := sameSourceConflicts mods1 mods2 ++ erc20Conflicts mods1 mods2
    ++ eoaConflicts mods1 mods2 ++ contractCallConflicts mods1 mods2
  (!conflicts.isEmpty, conflicts)

/-- A JSON-RPC error object, abstracted to the features `trace_transaction`
inspects: its `code`, whether its text contains `rate limit` / `too many requests`
(lowercased), and whether its text contains the substring `429`. -/
structure RpcErr where
  code : Int
  msgRateLimit : Bool
  msgHas429 : Bool
deriving DecidableEq

/-- One provider response to a `debug_traceTransaction` request: an error object,
a response missing the `result` field, or a result payload. -/
inductive RpcResponse where
  | err (e : RpcErr)
  | noResult
  | ok (t : Option TraceResult)
deriving DecidableEq

/-- Outcome of worker.py `trace_transaction`: the returned trace's `result`
object, or the exception escaping the retry loop. -/
inductive TraceOutcome where
  | success (t : Option TraceResult)
  | failure
deriving DecidableEq

/-- worker.py `trace_transaction`: the retry loop, driven by the list of
successive provider responses, returning the outcome and the list of backoff
sleeps (in seconds) performed.  A response list that runs out is modelled as a
failure (the provider always answers in the real loop).  A non-rate-limit API
error raises; the surrounding `except` clause retries it anyway when the raised
message contains `429` (`msgHas429`) and the retry budget is not exhausted. -/
def trace_transaction : List RpcResponse → Nat → TraceOutcome × List Nat
  | [], _ => (TraceOutcome.failure, [])
  | r :: rest, retries =>
    match r with
    | RpcResponse.ok t => (TraceOutcome.success t, [])
    | RpcResponse.err e =>
      if e.code = 429 ∨ e.msgRateLimit then
        if retries < MAX_RETRIES then
          let retries2 := retries + 1
          let sleep_time := RETRY_DELAY * 2 ^ (retries2 - 1)
          let k := trace_transaction rest retries2
          (k.1, sleep_time :: k.2)
        else (TraceOutcome.failure, [])
      else
        if e.msgHas429 ∧ retries < MAX_RETRIES then
          let retries2 := retries + 1
          let sleep_time := RETRY_DELAY * 2 ^ (retries2 - 1)
          let k := trace_transaction rest retries2
          (k.1, sleep_time :: k.2)
        else (TraceOutcome.failure, [])
    | RpcResponse.noResult =>
      if retries < MAX_RETRIES then
        let retries2 := retries + 1
        let sleep_time := RETRY_DELAY * 2 ^ (retries2 - 1)
        let k := trace_transaction rest retries2
        (k.1, sleep_time :: k.2)
      else (TraceOutcome.failure, [])

/-- worker.py `analyze_block`.  The input models the outcome of the block fetch:
`none` when fetching the block (or anything before the per-transaction loop)
raises, `some txs` when it yields transaction hashes, each paired with the
provider responses its `trace_transaction` call will consume. -/
def analyze_block (fetch : Option (List (PyStr × List RpcResponse))) :
    Finset PyStr × Nat × List Conflict × Bool :=
  match fetch with
  | none => (∅, 0, [], true)
  | some txs =>
    if txs.isEmpty then (∅, 0, [], false)
    else if txs.any fun p => decide ((trace_transaction p.2 0).1 = TraceOutcome.failure) then
      (∅, txs.length, [], true)
    else
      let tx_modifications := txs.filterMap fun p =>
        match (trace_transaction p.2 0).1 with
        | TraceOutcome.success t => some (p.1, analyze_trace t)
        | TraceOutcome.failure => none
      let res := (listPairs tx_modifications).foldl
        (fun (acc : Finset PyStr × List Conflict) pr =>
          let r := check_modifications_conflict pr.1.2 pr.2.2
          if r.1 then (insert pr.1.1 (insert pr.2.1 acc.1), acc.2 ++ r.2) else acc)
        (∅, [])
      (res.1, txs.length, res.2, false)

/-- calc_indie_txn.py: an access key `(address, field)`. -/
abbrev AccessKey : Type := PyStr × PyStr

/-- One entry of a `prestateTracer` trace: a touched address and which of its
fields the pre-state reports. -/
structure PrestateEntry where
  address : PyStr
  hasBalance : Bool
  hasNonce : Bool
  storageSlots : List PyStr
  hasCode : Bool
deriving DecidableEq

/-- The inputs `analyze_block_dependencies` consumes for one transaction: its
prestate trace, the transaction object's `from`/`to`, and the receipt's
`contractAddress` and logs (`(address, topics)`, topics already hex strings). -/
structure TxData where
  prestate : List PrestateEntry
  tx_from : PyStr
  tx_to : Option PyStr
  contractAddress : Option PyStr
  logs : List (PyStr × List PyStr)
deriving DecidableEq

/-- calc_indie_txn.py `analyze_block_dependencies`, read tracking for one
prestate entry: each present field becomes a read key for the lowered address. -/
def entryReads (e : PrestateEntry) : Finset AccessKey :=
  (if e.hasBalance then {(pyLower e.address, strCodes "balance")} else ∅)
    ∪ (if e.hasNonce then {(pyLower e.address, strCodes "nonce")} else ∅)
    ∪ (e.storageSlots.map fun slot => (pyLower e.address, strCodes "storage:" ++ slot)).toFinset
    ∪ (if e.hasCode then {(pyLower e.address, strCodes "code")} else ∅)

/-- calc_indie_txn.py `analyze_block_dependencies`: the `reads` set of one transaction. -/
def txReads (d : TxData) : Finset AccessKey :=
  d.prestate.foldl (fun acc e => acc ∪ entryReads e) ∅

/-- calc_indie_txn.py `analyze_block_dependencies`: the `writes` set of one
transaction — sender nonce/balance, recipient balance, contract-creation
code/nonce/balance, and one storage key per log topic. -/
def txWrites (d : TxData) : Finset AccessKey :=
  ({(pyLower d.tx_from, strCodes "nonce"), (pyLower d.tx_from, strCodes "balance")} : Finset AccessKey)
    ∪ (match d.tx_to with
       | some recipient => {(pyLower recipient, strCodes "balance")}
       | none => ∅)
    ∪ (match d.contractAddress with
       | some c => {(pyLower c, strCodes "code"), (pyLower c, strCodes "nonce"),
           (pyLower c, strCodes "balance")}
       | none => ∅)
    ∪ d.logs.foldl (fun acc lg =>
        acc ∪ (lg.2.map fun topic => (pyLower lg.1, strCodes "storage:" ++ topic)).toFinset) ∅

/-- The per-transaction record held in `valid_tx_data`. -/
structure AccessSet where
  reads : Finset AccessKey
  writes : Finset AccessKey
deriving DecidableEq

/-- calc_indie_txn.py: build the `valid_tx_data` record of one transaction. -/
def extractAccessSet (d : TxData) : AccessSet :=
  { reads := txReads d, writes := txWrites d }

/-- calc_indie_txn.py `analyze_block_dependencies`, pair-loop body: the three
conflict detail sets of one transaction pair, in source order
(`write_conflicts`, `read_write_conflicts`, `write_read_conflicts`). -/
def pair_conflicts (t1 t2 : AccessSet) : Finset AccessKey × Finset AccessKey × Finset AccessKey :=
  (t1.writes ∩ t2.writes, t1.reads ∩ t2.writes, t1.writes ∩ t2.reads)

/-- calc_indie_txn.py `analyze_block_dependencies`, pair-loop body: a pair is
recorded as dependent when any of its three conflict sets is nonempty. -/
def pair_dependent (t1 t2 : AccessSet) : Bool :=
  decide ((pair_conflicts t1 t2).1.Nonempty ∨ (pair_conflicts t1 t2).2.1.Nonempty
    ∨ (pair_conflicts t1 t2).2.2.Nonempty)

/-- One element of `dependent_pairs`. -/
structure DepPair where
  tx1 : PyStr
  tx2 : PyStr
  write_conflicts : Finset AccessKey
  read_write_conflicts : Finset AccessKey
  write_read_conflicts : Finset AccessKey
deriving DecidableEq

/-- calc_indie_txn.py `analyze_block_dependencies`: the `dependent_pairs` list
built from the valid transactions (hash plus access sets). -/
def block_dependent_pairs (valid : List (PyStr × AccessSet)) : List DepPair :=
  (listPairs valid).filterMap fun pr =>
    if pair_dependent pr.1.2 pr.2.2 then
      some { tx1 := pr.1.1
             tx2 := pr.2.1
             write_conflicts := (pair_conflicts pr.1.2 pr.2.2).1
             read_write_conflicts := (pair_conflicts pr.1.2 pr.2.2).2.1
             write_read_conflicts := (pair_conflicts pr.1.2 pr.2.2).2.2 }
    else none

/-- conflict_rate.py `analyze_chain`: what one loop iteration observes for a
completed future — an unpacked `BlockResult`, or an exception from the future. -/
inductive BlockOutcome where
  | res (deps : Finset PyStr) (total : Nat) (confs : List Conflict) (failed : Bool)
  | exn
deriving DecidableEq

/-- The orchestrator's running accumulators. -/
structure ChainAcc where
  deps : Finset PyStr
  total_txs : Nat
  conflicts : List Conflict
  failed_blocks : Nat
deriving DecidableEq

/-- conflict_rate.py `analyze_chain`, one loop iteration: a failed result or an
exception only increments the failed-block counter; a successful result extends
the dependent-hash collection, the transaction total and the conflict list. -/
def chainStep (acc : ChainAcc) : BlockOutcome → ChainAcc
  | BlockOutcome.exn => { acc with failed_blocks := acc.failed_blocks + 1 }
  | BlockOutcome.res d t c f =>
    if f then { acc with failed_blocks := acc.failed_blocks + 1 }
    else { acc with deps := acc.deps ∪ d, total_txs := acc.total_txs + t,
                    conflicts := acc.conflicts ++ c }

/-- conflict_rate.py `analyze_chain`: the returned summary fields the claims
are about (`dependency_ratio` is named `dependent_fraction` here). -/
structure ChainSummary where
  total_blocks : Nat
  failed_blocks : Nat
  block_success_rate : ℚ
  total_transactions : Nat
  dependent_transactions : Nat
  dependent_fraction : ℚ
deriving DecidableEq

/-- conflict_rate.py `analyze_chain`: drain the stream of per-block outcomes and
derive the final statistics. -/
def analyze_chain (outcomes : List BlockOutcome) : ChainSummary :=
  let acc := outcomes.foldl chainStep ⟨∅, 0, [], 0⟩
  let total_blocks := outcomes.length
  { total_blocks := total_blocks
    failed_blocks := acc.failed_blocks
    block_success_rate :=
      if total_blocks > 0 then ((total_blocks - acc.failed_blocks : Nat) : ℚ) / total_blocks else 0
    total_transactions := acc.total_txs
    dependent_transactions := acc.deps.card
    dependent_fraction :=
      if acc.total_txs > 0 then (acc.deps.card : ℚ) / acc.total_txs else 0 }

/-- Package an `analyze_block` return value as the orchestrator sees it. -/
def outcomeOfBlock (fetch : Option (List (PyStr × List RpcResponse))) : BlockOutcome :=
  let r := analyze_block fetch
  BlockOutcome.res r.1 r.2.1 r.2.2.1 r.2.2.2

/-- A well-formed ERC-20 `transfer(address,uint256)` calldata string: the
selector, a 24-hex-digit pad, a 40-hex-digit recipient (mixed case), and a
64-hex-digit amount — 138 characters in all. -/
def c6Input : PyStr :=
  strCodes "0xa9059cbb000000000000000000000000abcDEF1234abcDEF1234abcDEF1234abcDEF12340000000000000000000000000000000000000000000000000000000000000000"

/-- A root-call trace whose calldata is `c6Input`, with a mixed-case sender. -/
def c6Trace : Option TraceResult :=
  some
    { from_address := strCodes "0xFF11"
      to_address := some (strCodes "0xCc22")
      input := c6Input
      value := strCodes "0x0"
      calls := [] }

/-- The transaction count one outcome contributes to the orchestrator's total. -/
def outcomeTotal : BlockOutcome → Nat
  | BlockOutcome.res _ t _ false => t
  | _ => 0

/-- Whether one outcome increments the orchestrator's failed-block counter. -/
def outcomeFailed : BlockOutcome → Bool
  | BlockOutcome.res _ _ _ true => true
  | BlockOutcome.exn => true
  | _ => false

/-- The dependent-hash set one outcome contributes to the orchestrator's union. -/
def outcomeDeps : BlockOutcome → Finset PyStr
  | BlockOutcome.res d _ _ false => d
  | _ => ∅

/-- The spec's backoff formula, in milliseconds.
Modelled from the spec: `min(retryDelay * 2^(attempt-1), maxBackoffCeiling)`
plus a randomized jitter term of 0–1000 ms; neither a `maxBackoffCeiling`
constant nor a jitter source exists in config.py or worker.py. -/
def specBackoffWaitMs (ceilingMs n jitterMs : Nat) : Nat :=
  min (RETRY_DELAY * 1000 * 2 ^ (n - 1)) ceilingMs + jitterMs

/-! ## Theorems -/

theorem pyLowerChar_idem (c : Nat) : pyLowerChar (pyLowerChar c) = pyLowerChar c := by
  unfold pyLowerChar
  split
  · split <;> omega
  · rfl

theorem pyLower_idem (s : PyStr) : pyLower (pyLower s) = pyLower s := by
  simp [pyLower, Function.comp_def, pyLowerChar_idem]

theorem isLowerStr_pyLower (s : PyStr) : isLowerStr (pyLower s) := pyLower_idem s

theorem decode_erc20_fst_none (input_data : PyStr) :
    (decode_erc20_transfer input_data).1 = none := by
  unfold decode_erc20_transfer
  split
  · rfl
  · split <;> rfl

theorem foldl_chainStep_total (outcomes : List BlockOutcome) (a : ChainAcc) :
    (outcomes.foldl chainStep a).total_txs = a.total_txs + (outcomes.map outcomeTotal).sum := by
  induction outcomes generalizing a with
  | nil => simp
  | cons o rest ih =>
    cases o with
    | exn => simp [chainStep, ih, outcomeTotal]
    | res d t c f =>
      cases f <;> simp [chainStep, ih, outcomeTotal] <;> omega

theorem foldl_chainStep_failed (outcomes : List BlockOutcome) (a : ChainAcc) :
    (outcomes.foldl chainStep a).failed_blocks
      = a.failed_blocks + outcomes.countP outcomeFailed := by
  induction outcomes generalizing a with
  | nil => simp
  | cons o rest ih =>
    cases o with
    | exn => simp [chainStep, ih, outcomeFailed, List.countP_cons]; omega
    | res d t c f =>
      cases f <;> simp [chainStep, ih, outcomeFailed, List.countP_cons] <;> omega

theorem foldl_chainStep_deps (outcomes : List BlockOutcome) (a : ChainAcc) :
    (outcomes.foldl chainStep a).deps
      = a.deps ∪ (outcomes.map outcomeDeps).foldr (· ∪ ·) ∅ := by
  induction outcomes generalizing a with
  | nil => simp
  | cons o rest ih =>
    cases o with
    | exn => simp [chainStep, ih, outcomeDeps, Finset.union_assoc]
    | res d t c f =>
      cases f <;> simp [chainStep, ih, outcomeDeps, Finset.union_assoc]

/-- Claim C1, counterexample: a failed `BlockResult` carrying 5 transactions
contributes nothing to the orchestrator's transaction total — the accumulated
total is 0, not 5 as the claim requires. -/
theorem c1_counterexample :
    (analyze_chain [BlockOutcome.res ∅ 5 [] true]).total_transactions = 0 ∧
      (analyze_chain [BlockOutcome.res ∅ 5 [] true]).total_transactions ≠ 5 := by
  decide

/-- Claim C1 (amended): the orchestrator adds a result's `totalTx` to the
run-level transaction total only for results with `failed=false`; results with
`failed=true` (and futures that raise) contribute nothing to the total. -/
theorem c1_total_txs_only_successful (outcomes : List BlockOutcome) :
    (analyze_chain outcomes).total_transactions = (outcomes.map outcomeTotal).sum := by
  simp [analyze_chain, foldl_chainStep_total]

theorem analyze_block_trace_failure (txs : List (PyStr × List RpcResponse))
    (hne : txs ≠ [])
    (hf : ∃ p ∈ txs, (trace_transaction p.2 0).1 = TraceOutcome.failure) :
    analyze_block (some txs) = (∅, txs.length, [], true) := by
  have h1 : txs.isEmpty = false := by simpa [List.isEmpty_iff] using hne
  have h2 : (txs.any fun p => decide ((trace_transaction p.2 0).1 = TraceOutcome.failure)) = true := by
    simpa [List.any_eq_true] using hf
  simp [analyze_block, h1, h2]

/-- Claim C3: a block of N ≥ 1 transactions in which some transaction's trace
fetch fails after exhausting retries yields `failed=true`, `totalTx=N`, an empty
dependent-transaction set and an empty conflict list. -/
theorem c3_failed_block_result (txs : List (PyStr × List RpcResponse))
    (hN : 1 ≤ txs.length)
    (hf : ∃ p ∈ txs, (trace_transaction p.2 0).1 = TraceOutcome.failure) :
    analyze_block (some txs) = (∅, txs.length, [], true) :=
  analyze_block_trace_failure txs
    (by rintro rfl; simp at hN) hf

theorem c3_witness :
    analyze_block (some [(strCodes "0xaa", [RpcResponse.err ⟨500, false, false⟩])])
      = (∅, 1, [], true) :=
  c3_failed_block_result _ (by decide) (by decide)

/-- Claim C10: a failure of the block fetch itself reports `totalTx=0`, while a
per-transaction trace failure reports `totalTx` equal to the block's transaction
count — the reported count of a failed block depends on where the failure
occurred. -/
theorem c10_failure_location (txs : List (PyStr × List RpcResponse))
    (hf : ∃ p ∈ txs, (trace_transaction p.2 0).1 = TraceOutcome.failure) :
    analyze_block none = (∅, 0, [], true)
      ∧ analyze_block (some txs) = (∅, txs.length, [], true) := by
  refine ⟨rfl, analyze_block_trace_failure txs ?_ hf⟩
  rintro rfl
  obtain ⟨p, hp, -⟩ := hf
  exact absurd hp (List.not_mem_nil p)

theorem c10_witness :
    analyze_block none = (∅, 0, [], true)
      ∧ analyze_block (some [(strCodes "0xaa", [RpcResponse.err ⟨500, false, false⟩]),
          (strCodes "0xbb", [RpcResponse.ok none])]) = (∅, 2, [], true) :=
  c10_failure_location _ (by decide)

/-- Claim C4: in AccessSet mode a pair is dependent iff one of the three
intersections `writes1 ∩ writes2`, `writes1 ∩ reads2`, `writes2 ∩ reads1` is
nonempty, and the recorded detail sets are exactly those three intersections. -/
theorem c4_access_pair_classification (t1 t2 : AccessSet) :
    (pair_dependent t1 t2 = true ↔
      (t1.writes ∩ t2.writes).Nonempty ∨ (t1.writes ∩ t2.reads).Nonempty
        ∨ (t2.writes ∩ t1.reads).Nonempty)
    ∧ (pair_conflicts t1 t2).1 = t1.writes ∩ t2.writes
    ∧ (pair_conflicts t1 t2).2.1 = t2.writes ∩ t1.reads
    ∧ (pair_conflicts t1 t2).2.2 = t1.writes ∩ t2.reads := by
  refine ⟨?_, rfl, Finset.inter_comm _ _, rfl⟩
  have h : pair_dependent t1 t2 = true ↔
      ((t1.writes ∩ t2.writes).Nonempty ∨ (t1.reads ∩ t2.writes).Nonempty
        ∨ (t1.writes ∩ t2.reads).Nonempty) := by
    simp [pair_dependent, pair_conflicts]
  rw [h, Finset.inter_comm t1.reads t2.writes]
  tauto

theorem trace_transaction_rl_sleeps (es : List RpcErr)
    (h : ∀ e ∈ es, e.code = 429 ∨ e.msgRateLimit = true)
    (t : Option TraceResult) (rest : List RpcResponse) (r0 : Nat)
    (hk : r0 + es.length ≤ MAX_RETRIES) :
    trace_transaction (es.map RpcResponse.err ++ (RpcResponse.ok t :: rest)) r0
      = (TraceOutcome.success t,
          (List.range es.length).map fun i => RETRY_DELAY * 2 ^ (r0 + i)) := by
  induction es generalizing r0 with
  | nil => simp [trace_transaction]
  | cons e es ih =>
    have hcond : e.code = 429 ∨ e.msgRateLimit = true := h e (List.mem_cons_self _ _)
    have hlt : r0 < MAX_RETRIES := by
      simp only [List.length_cons] at hk
      omega
    have ih2 := ih (fun x hx => h x (List.mem_cons_of_mem _ hx)) (r0 + 1)
      (by simp only [List.length_cons] at hk; omega)
    simp only [List.map_cons, List.cons_append, trace_transaction]
    rw [if_pos hcond, if_pos hlt]
    simp only [List.append_eq]
    rw [ih2]
    apply congrArg (Prod.mk (TraceOutcome.success t))
    simp only [List.length_cons, List.range_succ_eq_map, List.map_cons, List.map_map,
      Function.comp_def]
    congr 1
    apply List.map_congr_left
    intro i _
    have hr : r0 + 1 + i = r0 + i.succ := by omega
    rw [hr]

/-- Claim C2 (amended): after the n-th consecutive rate-limited response
(1 ≤ n ≤ MAX_RETRIES = 10) the code waits exactly `RETRY_DELAY * 2^(n-1)`
seconds before the next call; no backoff ceiling is applied and no jitter is
added.  Here the first k responses are rate-limited and the call then succeeds,
sleeping `RETRY_DELAY * 2^0, …, RETRY_DELAY * 2^(k-1)` seconds in order. -/
theorem c2_exponential_backoff_no_jitter (es : List RpcErr) (t : Option TraceResult)
    (rest : List RpcResponse)
    (h : ∀ e ∈ es, e.code = 429 ∨ e.msgRateLimit = true)
    (hk : es.length ≤ MAX_RETRIES) :
    trace_transaction (es.map RpcResponse.err ++ (RpcResponse.ok t :: rest)) 0
      = (TraceOutcome.success t,
          (List.range es.length).map fun n => RETRY_DELAY * 2 ^ n) := by
  have h0 := trace_transaction_rl_sleeps es h t rest 0 (by omega)
  simpa using h0

theorem c2_witness :
    trace_transaction [RpcResponse.err ⟨429, false, false⟩, RpcResponse.err ⟨0, true, false⟩,
        RpcResponse.ok none] 0 = (TraceOutcome.success none, [2, 4]) := by
  have h := c2_exponential_backoff_no_jitter [⟨429, false, false⟩, ⟨0, true, false⟩] none []
    (by decide) (by decide)
  simpa [List.range_succ] using h

/-- Claim C2, counterexample: the claim says each wait equals
`min(retryDelay * 2^(n-1), maxBackoffCeiling)` plus a randomized jitter term
ranging over 0–1000 ms.  On a run of 10 rate-limited responses the code's wait
before retry 1 is the single value 2000 ms for every jitter draw, so no ceiling
makes the claimed formula hold for both jitter = 0 and jitter = 1000. -/
theorem c2_counterexample :
    ¬ ∃ ceilingMs : Nat, ∀ n, 1 ≤ n → n ≤ MAX_RETRIES → ∀ jitterMs ≤ 1000,
      1000 * ((trace_transaction (List.replicate 10 (RpcResponse.err ⟨429, false, false⟩)
          ++ [RpcResponse.ok none]) 0).2.getD (n - 1) 0)
        = specBackoffWaitMs ceilingMs n jitterMs := by
  rintro ⟨C, h⟩
  have e : (trace_transaction (List.replicate 10 (RpcResponse.err ⟨429, false, false⟩)
      ++ [RpcResponse.ok none]) 0).2.getD 0 0 = 2 := by decide
  have h0 := h 1 le_rfl (by decide) 0 (by omega)
  have h1000 := h 1 le_rfl (by decide) 1000 le_rfl
  rw [show (1 : Nat) - 1 = 0 from rfl, e] at h0 h1000
  norm_num [specBackoffWaitMs, RETRY_DELAY] at h0 h1000
  omega

theorem pyOr_none (b : PyStr) : pyOr none b = b := rfl

theorem callMod_token_fields (c : SubCall)
    (ht : (callMod c).type = strCodes "erc20-transfer") :
    (callMod c).token_to = (decode_erc20_transfer (callMod c).input_data).2
      ∧ (callMod c).token_from = some ((callMod c).from_address) := by
  unfold callMod at ht ⊢
  simp only [decode_erc20_fst_none, Option.isSome_none, Bool.false_eq_true, false_or] at ht ⊢
  split at ht
  · simp_all [pyOr_none]
  · split at ht
    · exact absurd ht (by decide)
    · simp_all [pyOr_none]

theorem rootMods_token_fields (r : TraceResult) (m : Modification) (hm : m ∈ rootMods r)
    (ht : m.type = strCodes "erc20-transfer") :
    m.token_to = (decode_erc20_transfer m.input_data).2
      ∧ m.token_from = some m.from_address := by
  unfold rootMods at hm
  split at hm
  · simp at hm
  · simp only [decode_erc20_fst_none, Option.isSome_none, Bool.false_eq_true, false_or,
      List.mem_singleton] at hm
    subst hm
    simp only [decode_erc20_fst_none] at ht ⊢
    split at ht
    · simp_all [pyOr_none]
    · split at ht
      · exact absurd ht (by decide)
      · split at ht
        · exact absurd ht (by decide)
        · exact absurd ht (by decide)

set_option maxRecDepth 40000 in
/-- Claim C6, counterexample: on a well-formed ERC-20 transfer trace, the stored
`token_from` is the call's (lowered) `from` address taken from the trace, while
the decoder extracts no from-operand from the input data at all — so
`token_from` does not hold a decoded operand. -/
theorem c6_counterexample :
    ((analyze_trace c6Trace).map fun m => m.token_from) = [some (strCodes "0xff11")]
      ∧ (decode_erc20_transfer c6Input).1 = none := by
  decide

/-- Claim C6 (amended): for every `erc20-transfer` Modification produced by
trace extraction, `token_to` is the recipient decoded from the call's input
data, but `token_from` is the call's own (lowered) from address taken from the
trace — the decoder never yields a from-operand. -/
theorem c6_token_fields (t : Option TraceResult) (m : Modification)
    (hm : m ∈ analyze_trace t) (ht : m.type = strCodes "erc20-transfer") :
    m.token_to = (decode_erc20_transfer m.input_data).2
      ∧ m.token_from = some m.from_address := by
  match t with
  | none => exact absurd hm (List.not_mem_nil m)
  | some r =>
    simp only [analyze_trace, List.mem_append, List.mem_map] at hm
    rcases hm with hm | ⟨c, -, rfl⟩
    · exact rootMods_token_fields r m hm ht
    · exact callMod_token_fields c ht

set_option maxRecDepth 40000 in
theorem c6_witness :
    ((analyze_trace c6Trace).headD default).token_to
        = (decode_erc20_transfer ((analyze_trace c6Trace).headD default).input_data).2
      ∧ ((analyze_trace c6Trace).headD default).token_from
        = some ((analyze_trace c6Trace).headD default).from_address :=
  c6_token_fields c6Trace _ (by decide) (by decide)

theorem erc20Conflicts_singleton_none (m1 m2 : Modification)
    (hto : m1.to_address = m2.to_address)
    (htf : m1.token_from ≠ m2.token_from) (htt : m1.token_to ≠ m2.token_to) :
    erc20Conflicts [m1] [m2] = [] := by
  have hp : (m2.type == strCodes "erc20-transfer" && m1.to_address == m2.to_address
      && (m1.token_from == m2.token_from || m1.token_to == m2.token_to)) = false := by
    simp [htf, htt]
  simp [erc20Conflicts, List.find?, hp]

/-- Claim C7: two `erc20-transfer` Modifications to the same `to` address whose
`token_from` operands differ and whose `token_to` operands also differ produce
no `erc20-balance-conflict`. -/
theorem c7_no_erc20_balance_conflict (m1 m2 : Modification)
    (h1 : m1.type = strCodes "erc20-transfer") (h2 : m2.type = strCodes "erc20-transfer")
    (hto : m1.to_address = m2.to_address)
    (htf : m1.token_from ≠ m2.token_from) (htt : m1.token_to ≠ m2.token_to) :
    (check_modifications_conflict [m1] [m2]).2.filter
      (fun c => c.type == strCodes "erc20-balance-conflict") = [] := by
  have hB := erc20Conflicts_singleton_none m1 m2 hto htf htt
  have hC : eoaConflicts [m1] [m2] = [] := by
    have hne : strCodes "erc20-transfer" ≠ strCodes "eoa-transfer" := by decide
    simp [eoaConflicts, h1, hne]
  have hD : contractCallConflicts [m1] [m2] = [] := by
    have hne : strCodes "erc20-transfer" ≠ strCodes "contract-call" := by decide
    simp [contractCallConflicts, h1, hne]
  have hA : ∀ c ∈ sameSourceConflicts [m1] [m2],
      (c.type == strCodes "erc20-balance-conflict") = false := by
    intro c hc
    simp only [sameSourceConflicts, List.mem_map] at hc
    obtain ⟨s, -, rfl⟩ := hc
    exact (by decide : (strCodes "same-source" == strCodes "erc20-balance-conflict") = false)
  simp only [check_modifications_conflict, hB, hC, hD, List.append_nil]
  exact List.filter_eq_nil_iff.mpr (by simpa using hA)

theorem c7_witness :
    (check_modifications_conflict
      [{ type := strCodes "erc20-transfer"
         from_address := strCodes "0xaa"
         to_address := strCodes "0xcc"
         input_data := strCodes "0x"
         value := strCodes "0x0"
         token_from := some (strCodes "0x01")
         token_to := some (strCodes "0x02") }]
      [{ type := strCodes "erc20-transfer"
         from_address := strCodes "0xbb"
         to_address := strCodes "0xcc"
         input_data := strCodes "0x"
         value := strCodes "0x0"
         token_from := some (strCodes "0x03")
         token_to := some (strCodes "0x04") }]).2.filter
      (fun c => c.type == strCodes "erc20-balance-conflict") = [] :=
  c7_no_erc20_balance_conflict _ _ rfl rfl rfl (by decide) (by decide)

theorem filterMap_if_find_ne_nil {α β γ : Type} (l1 : List α) (l2 : List β)
    (P : α → Prop) [DecidablePred P] (q : α → β → Bool) (g : α → β → γ) :
    (l1.filterMap fun a => if P a then (l2.find? (q a)).map (g a) else none) ≠ [] ↔
      ∃ a ∈ l1, P a ∧ ∃ b ∈ l2, q a b = true := by
  rw [Ne, List.filterMap_eq_nil_iff]
  push_neg
  constructor
  · rintro ⟨a, ha, hne⟩
    by_cases hP : P a
    · rw [if_pos hP] at hne
      have hsome : (l2.find? (q a)).isSome := by
        cases h : l2.find? (q a) with
        | none => rw [h] at hne; simp at hne
        | some b => simp
      obtain ⟨b, hb, hq⟩ := List.find?_isSome.mp hsome
      exact ⟨a, ha, hP, b, hb, hq⟩
    · rw [if_neg hP] at hne
      exact absurd rfl hne
  · rintro ⟨a, ha, hP, b, hb, hq⟩
    refine ⟨a, ha, ?_⟩
    rw [if_pos hP]
    have hsome : (l2.find? (q a)).isSome := List.find?_isSome.mpr ⟨b, hb, hq⟩
    cases h : l2.find? (q a) with
    | none => rw [h] at hsome; simp at hsome
    | some b2 => simp [h]

theorem sameSourceConflicts_ne_nil (mods1 mods2 : List Modification) :
    sameSourceConflicts mods1 mods2 ≠ [] ↔
      ∃ a ∈ mods1, a.value ≠ strCodes "0x0" ∧ ∃ b ∈ mods2, b.value ≠ strCodes "0x0" ∧
        a.from_address = b.from_address := by
  unfold sameSourceConflicts
  rw [Ne, List.map_eq_nil_iff, List.filter_eq_nil_iff]
  push_neg
  constructor
  · rintro ⟨s, hs, hmem⟩
    rw [List.mem_dedup] at hs
    simp only [List.mem_map, List.mem_filter, decide_eq_true_eq] at hs hmem
    obtain ⟨a, ⟨ha, hav⟩, rfl⟩ := hs
    obtain ⟨b, ⟨hb, hbv⟩, hba⟩ := hmem
    exact ⟨a, ha, by simpa using hav, b, hb, by simpa using hbv, hba.symm⟩
  · rintro ⟨a, ha, hav, b, hb, hbv, hab⟩
    refine ⟨a.from_address, ?_, ?_⟩
    · rw [List.mem_dedup]
      exact List.mem_map_of_mem _ (List.mem_filter.mpr ⟨ha, by simpa using hav⟩)
    · simp only [List.mem_map, List.mem_filter, decide_eq_true_eq]
      exact ⟨b, ⟨hb, by simpa using hbv⟩, hab.symm⟩

theorem erc20Conflicts_ne_nil (mods1 mods2 : List Modification) :
    erc20Conflicts mods1 mods2 ≠ [] ↔
      ∃ a ∈ mods1, a.type = strCodes "erc20-transfer" ∧ ∃ b ∈ mods2,
        b.type = strCodes "erc20-transfer" ∧ a.to_address = b.to_address ∧
          (a.token_from = b.token_from ∨ a.token_to = b.token_to) := by
  unfold erc20Conflicts
  rw [filterMap_if_find_ne_nil]
  simp only [Bool.and_eq_true, Bool.or_eq_true, beq_iff_eq]
  aesop

theorem eoaConflicts_ne_nil (mods1 mods2 : List Modification) :
    eoaConflicts mods1 mods2 ≠ [] ↔
      ∃ a ∈ mods1, a.type = strCodes "eoa-transfer" ∧ ∃ b ∈ mods2,
        b.type = strCodes "eoa-transfer" ∧ a.to_address = b.to_address := by
  unfold eoaConflicts
  rw [filterMap_if_find_ne_nil]
  simp only [Bool.and_eq_true, beq_iff_eq]

theorem contractCallConflicts_ne_nil (mods1 mods2 : List Modification) :
    contractCallConflicts mods1 mods2 ≠ [] ↔
      ∃ a ∈ mods1, a.type = strCodes "contract-call" ∧ ∃ b ∈ mods2,
        b.type = strCodes "contract-call" ∧ a.to_address = b.to_address ∧
          a.function_selector = b.function_selector := by
  unfold contractCallConflicts
  rw [filterMap_if_find_ne_nil]
  simp only [Bool.and_eq_true, beq_iff_eq]
  tauto

theorem check_dep_iff (mods1 mods2 : List Modification) :
    (check_modifications_conflict mods1 mods2).1 = true ↔
      sameSourceConflicts mods1 mods2 ≠ [] ∨ erc20Conflicts mods1 mods2 ≠ []
        ∨ eoaConflicts mods1 mods2 ≠ [] ∨ contractCallConflicts mods1 mods2 ≠ [] := by
  simp only [check_modifications_conflict, Bool.not_eq_true', List.isEmpty_eq_false, Ne,
    List.append_eq_nil, not_and]
  tauto

/-- Claim C5: the dependent verdict of conflict detection is symmetric in its
two arguments, both in the AccessSet model (`pair_dependent`) and in the
Modification model (`check_modifications_conflict`). -/
theorem c5_conflict_symmetric (t1 t2 : AccessSet) (mods1 mods2 : List Modification) :
    pair_dependent t1 t2 = pair_dependent t2 t1
      ∧ (check_modifications_conflict mods1 mods2).1
          = (check_modifications_conflict mods2 mods1).1 := by
  constructor
  · have key : ∀ u v : AccessSet, pair_dependent u v = true → pair_dependent v u = true := by
      intro u v h
      simp only [pair_dependent, pair_conflicts, decide_eq_true_eq] at h ⊢
      rcases h with h | h | h
      · exact Or.inl (by rwa [Finset.inter_comm])
      · exact Or.inr (Or.inr (by rwa [Finset.inter_comm]))
      · exact Or.inr (Or.inl (by rwa [Finset.inter_comm]))
    exact Bool.eq_iff_iff.mpr ⟨key t1 t2, key t2 t1⟩
  · have key : ∀ u v : List Modification,
        (check_modifications_conflict u v).1 = true →
          (check_modifications_conflict v u).1 = true := by
      intro u v h
      rw [check_dep_iff] at h ⊢
      rw [sameSourceConflicts_ne_nil, erc20Conflicts_ne_nil, eoaConflicts_ne_nil,
        contractCallConflicts_ne_nil] at h ⊢
      rcases h with ⟨a, ha, hav, b, hb, hbv, he⟩ | ⟨a, ha, hat, b, hb, hbt, hto, htok⟩
        | ⟨a, ha, hat, b, hb, hbt, hto⟩ | ⟨a, ha, hat, b, hb, hbt, hto, hfs⟩
      · exact Or.inl ⟨b, hb, hbv, a, ha, hav, he.symm⟩
      · exact Or.inr (Or.inl ⟨b, hb, hbt, a, ha, hat, hto.symm, htok.imp Eq.symm Eq.symm⟩)
      · exact Or.inr (Or.inr (Or.inl ⟨b, hb, hbt, a, ha, hat, hto.symm⟩))
      · exact Or.inr (Or.inr (Or.inr ⟨b, hb, hbt, a, ha, hat, hto.symm, hfs.symm⟩))
    exact Bool.eq_iff_iff.mpr ⟨key mods1 mods2, key mods2 mods1⟩

theorem decode_snd_lower (input_data s : PyStr)
    (h : (decode_erc20_transfer input_data).2 = some s) : isLowerStr s := by
  unfold decode_erc20_transfer at h
  split at h
  · simp at h
  · split at h
    · simp at h
    · simp only [Option.some.injEq] at h
      subst h
      exact pyLower_idem _

theorem token_from_if_lower (ty a : PyStr) (s : PyStr)
    (h : (if ty = strCodes "erc20-transfer" then some (pyLower a) else none) = some s) :
    isLowerStr s := by
  split at h
  · simp only [Option.some.injEq] at h
    subst h
    exact pyLower_idem _
  · simp at h

theorem token_to_if_lower (ty input_data : PyStr) (s : PyStr)
    (h : (if ty = strCodes "erc20-transfer" then (decode_erc20_transfer input_data).2 else none)
      = some s) :
    isLowerStr s := by
  split at h
  · exact decode_snd_lower _ _ h
  · simp at h

theorem callMod_lower (c : SubCall) :
    isLowerStr (callMod c).from_address ∧ isLowerStr (callMod c).to_address
      ∧ (∀ s, (callMod c).token_from = some s → isLowerStr s)
      ∧ (∀ s, (callMod c).token_to = some s → isLowerStr s) := by
  unfold callMod
  simp only [decode_erc20_fst_none, pyOr_none]
  exact ⟨pyLower_idem _, pyLower_idem _,
    fun s hs => token_from_if_lower _ _ s hs,
    fun s hs => token_to_if_lower _ _ s hs⟩

theorem rootMods_lower (r : TraceResult) (m : Modification) (hm : m ∈ rootMods r) :
    isLowerStr m.from_address ∧ isLowerStr m.to_address
      ∧ (∀ s, m.token_from = some s → isLowerStr s)
      ∧ (∀ s, m.token_to = some s → isLowerStr s) := by
  unfold rootMods at hm
  split at hm
  · simp at hm
  · simp only [decode_erc20_fst_none, pyOr_none, List.mem_singleton] at hm
    subst hm
    exact ⟨pyLower_idem _, pyLower_idem _,
      fun s hs => token_from_if_lower _ _ s hs,
      fun s hs => token_to_if_lower _ _ s hs⟩

theorem mem_foldl_union {α β : Type} [DecidableEq β] (f : α → Finset β) (l : List α)
    (init : Finset β) (x : β) :
    x ∈ l.foldl (fun acc e => acc ∪ f e) init ↔ x ∈ init ∨ ∃ e ∈ l, x ∈ f e := by
  induction l generalizing init with
  | nil => simp
  | cons e es ih =>
    simp only [List.foldl_cons, ih, Finset.mem_union, List.mem_cons]
    constructor
    · rintro ((h | h) | ⟨e2, he2, hx⟩)
      · exact Or.inl h
      · exact Or.inr ⟨e, Or.inl rfl, h⟩
      · exact Or.inr ⟨e2, Or.inr he2, hx⟩
    · rintro (h | ⟨e2, (rfl | he2), hx⟩)
      · exact Or.inl (Or.inl h)
      · exact Or.inl (Or.inr hx)
      · exact Or.inr ⟨e2, he2, hx⟩

theorem entryReads_lower (e : PrestateEntry) (k : AccessKey) (hk : k ∈ entryReads e) :
    isLowerStr k.1 := by
  unfold entryReads at hk
  simp only [Finset.mem_union, List.mem_toFinset, List.mem_map] at hk
  rcases hk with ((hk | hk) | ⟨slot, -, rfl⟩) | hk
  · split at hk
    · simp only [Finset.mem_singleton] at hk
      subst hk
      exact pyLower_idem _
    · simp at hk
  · split at hk
    · simp only [Finset.mem_singleton] at hk
      subst hk
      exact pyLower_idem _
    · simp at hk
  · exact pyLower_idem _
  · split at hk
    · simp only [Finset.mem_singleton] at hk
      subst hk
      exact pyLower_idem _
    · simp at hk

theorem txReads_lower (d : TxData) (k : AccessKey) (hk : k ∈ txReads d) :
    isLowerStr k.1 := by
  unfold txReads at hk
  rw [mem_foldl_union] at hk
  rcases hk with hk | ⟨e, -, hk⟩
  · simp at hk
  · exact entryReads_lower e k hk

theorem txWrites_lower (d : TxData) (k : AccessKey) (hk : k ∈ txWrites d) :
    isLowerStr k.1 := by
  unfold txWrites at hk
  rw [Finset.mem_union, mem_foldl_union] at hk
  rcases hk with hk | hk | ⟨lg, -, hk⟩
  · rw [Finset.mem_union, Finset.mem_union] at hk
    rcases hk with (hk | hk) | hk
    · simp only [Finset.mem_insert, Finset.mem_singleton] at hk
      rcases hk with rfl | rfl
      · exact pyLower_idem _
      · exact pyLower_idem _
    · rcases hto : d.tx_to with _ | recipient
      · rw [hto] at hk
        simp at hk
      · rw [hto] at hk
        simp only [Finset.mem_singleton] at hk
        subst hk
        exact pyLower_idem _
    · rcases hca : d.contractAddress with _ | caddr
      · rw [hca] at hk
        simp at hk
      · rw [hca] at hk
        simp only [Finset.mem_insert, Finset.mem_singleton] at hk
        rcases hk with rfl | rfl | rfl
        · exact pyLower_idem _
        · exact pyLower_idem _
        · exact pyLower_idem _
  · simp at hk
  · simp only [List.mem_toFinset, List.mem_map] at hk
    obtain ⟨topic, -, rfl⟩ := hk
    exact pyLower_idem _

/-- Claim C8: every address stored in a Modification by the call-tree strategy
and in an AccessKey by the prestate strategy is lowercased first, whatever the
letter case of the addresses in the input trace, transaction or receipt. -/
theorem c8_addresses_lowercase :
    (∀ t : Option TraceResult, ∀ m ∈ analyze_trace t,
        isLowerStr m.from_address ∧ isLowerStr m.to_address
          ∧ (∀ s, m.token_from = some s → isLowerStr s)
          ∧ (∀ s, m.token_to = some s → isLowerStr s))
      ∧ (∀ d : TxData, ∀ k ∈ txReads d ∪ txWrites d, isLowerStr k.1) := by
  constructor
  · intro t m hm
    match t with
    | none => exact absurd hm (List.not_mem_nil m)
    | some r =>
      simp only [analyze_trace, List.mem_append, List.mem_map] at hm
      rcases hm with hm | ⟨c, -, rfl⟩
      · exact rootMods_lower r m hm
      · exact callMod_lower c
  · intro d k hk
    rw [Finset.mem_union] at hk
    rcases hk with hk | hk
    · exact txReads_lower d k hk
    · exact txWrites_lower d k hk

set_option maxRecDepth 40000 in
theorem c8_witness :
    isLowerStr ((analyze_trace c6Trace).headD default).to_address
      ∧ isLowerStr (strCodes "0xabc1") :=
  ⟨((c8_addresses_lowercase.1 c6Trace _ (by decide)).2.1), by
    have h := c8_addresses_lowercase.2
      { prestate := [{ address := strCodes "0xabC1"
                       hasBalance := true
                       hasNonce := false
                       storageSlots := []
                       hasCode := false }]
        tx_from := strCodes "0xEE"
        tx_to := none
        contractAddress := none
        logs := [] }
      (pyLower (strCodes "0xabC1"), strCodes "balance") (by decide)
    have e : pyLower (strCodes "0xabC1") = strCodes "0xabc1" := by decide
    rw [e] at h
    exact h⟩

theorem analyze_block_failed_deps (fetch : Option (List (PyStr × List RpcResponse)))
    (h : (analyze_block fetch).2.2.2 = true) : (analyze_block fetch).1 = ∅ := by
  match fetch with
  | none => rfl
  | some txs =>
    by_cases h1 : txs.isEmpty
    · simp [analyze_block, h1]
    · by_cases h2 : (txs.any fun p =>
          decide ((trace_transaction p.2 0).1 = TraceOutcome.failure)) = true
      · simp [analyze_block, h1, h2]
      · rw [Bool.not_eq_true] at h2
        exfalso
        simp [analyze_block, h1, h2] at h

theorem outcomeDeps_ofBlock (fetch : Option (List (PyStr × List RpcResponse))) :
    outcomeDeps (outcomeOfBlock fetch) = (analyze_block fetch).1 := by
  cases hf : (analyze_block fetch).2.2.2 with
  | false => simp [outcomeOfBlock, outcomeDeps, hf]
  | true => simp [outcomeOfBlock, outcomeDeps, hf, analyze_block_failed_deps fetch hf]

/-- Claim C9: at the end of a chain run over the given block fetches, the
dependency ratio equals the size of the union of dependent hashes across all
blocks divided by the accumulated transaction total (0 when that total is 0),
and the block success rate equals (blocksAnalyzed − failedBlocks) / blocksAnalyzed. -/
theorem c9_final_statistics (fetches : List (Option (List (PyStr × List RpcResponse)))) :
    (analyze_chain (fetches.map outcomeOfBlock)).dependent_fraction
        = (if (analyze_chain (fetches.map outcomeOfBlock)).total_transactions = 0 then 0
            else (((fetches.map fun f => (analyze_block f).1).foldr (· ∪ ·) ∅).card : ℚ)
              / (analyze_chain (fetches.map outcomeOfBlock)).total_transactions)
      ∧ (analyze_chain (fetches.map outcomeOfBlock)).block_success_rate
          = (((analyze_chain (fetches.map outcomeOfBlock)).total_blocks : ℚ)
                - (analyze_chain (fetches.map outcomeOfBlock)).failed_blocks)
              / (analyze_chain (fetches.map outcomeOfBlock)).total_blocks := by
  have hdeps : ((fetches.map outcomeOfBlock).foldl chainStep ⟨∅, 0, [], 0⟩).deps
      = (fetches.map fun f => (analyze_block f).1).foldr (· ∪ ·) ∅ := by
    rw [foldl_chainStep_deps, Finset.empty_union, List.map_map]
    congr 1
    exact List.map_congr_left fun f _ => outcomeDeps_ofBlock f
  have hfail_le : ((fetches.map outcomeOfBlock).foldl chainStep ⟨∅, 0, [], 0⟩).failed_blocks
      ≤ (fetches.map outcomeOfBlock).length := by
    rw [foldl_chainStep_failed]
    simpa using List.countP_le_length _
  constructor
  · simp only [analyze_chain]
    rcases Nat.eq_zero_or_pos ((fetches.map outcomeOfBlock).foldl chainStep ⟨∅, 0, [], 0⟩).total_txs
      with h0 | hpos
    · simp [h0]
    · rw [if_pos hpos, if_neg (by omega), hdeps]
  · simp only [analyze_chain]
    rcases Nat.eq_zero_or_pos (fetches.map outcomeOfBlock).length with h0 | hpos
    · have hnil : fetches.map outcomeOfBlock = [] := List.length_eq_zero.mp h0
      simp [hnil]
    · rw [if_pos hpos, Nat.cast_sub hfail_le]
